import Mathlib

/-!
Verification of the resumable batch-processing pipeline of
`linkedin-extract-email` (`src/index.js`, class `LinkedInEmailFinder`).

The JavaScript code is shallowly embedded as pure Lean functions:

* JS strings are Lean `String`s (a wrapper around `List Char`); the string
  primitives the pipeline uses (`trim`, `toLowerCase`, `substring`) are
  modelled character-wise, with `toLowerCase` restricted to its ASCII case
  mapping (the contact data never exercises non-ASCII case folding).
* A JS `Set` is modelled as an insertion-ordered duplicate-free list:
  `set.add` appends when absent, `new Set(arr)` folds `add` over the array.
* File-system state for the progress file is an explicit `StorageState`
  (missing / unreadable-or-unparseable / parsed JSON object with optional
  fields); `loadProgress`'s try/catch therefore becomes a total function.
* The two network calls inside `searchEmail` (DuckDuckGo search plus the
  OpenAI completion) are abstracted as one provider function returning
  either the pair (search results, AI response text) or a thrown error's
  message; the three regex extractors applied to a successful AI response
  are abstracted as parameters, since no verified property depends on
  their internals.
* `processConnections` is embedded as a pure function from its inputs
  (records, sample size, resume flag, storage, output-file-nonempty flag,
  clock value) to everything it observably does: the returned results, the
  sequence of lookups issued, the incremental CSV writes with their
  header flags, and the progress checkpoints.  The `batchSize` grouping in
  the source only drives the progress bar; records are processed strictly
  sequentially in candidate order, which the flat loop below mirrors.
-/

namespace LinkedInExtract

/-! ## JS string primitives -/

/-- One step of `String.prototype.trim`: drop leading whitespace. -/
def dropLeadingWs (l : List Char) : List Char :=
  l.dropWhile Char.isWhitespace

/-- `String.prototype.trim` on the character list: strip whitespace from
both ends. -/
def trimChars (l : List Char) : List Char :=
  ((dropLeadingWs l).reverse.dropWhile Char.isWhitespace).reverse

/-- `String.prototype.trim`. -/
def jsTrim (s : String) : String := ⟨trimChars s.data⟩

/-- ASCII case mapping of `String.prototype.toLowerCase`, per character. -/
def jsCharLower (c : Char) : Char :=
  match c with
  | 'A' => 'a' | 'B' => 'b' | 'C' => 'c' | 'D' => 'd' | 'E' => 'e'
  | 'F' => 'f' | 'G' => 'g' | 'H' => 'h' | 'I' => 'i' | 'J' => 'j'
  | 'K' => 'k' | 'L' => 'l' | 'M' => 'm' | 'N' => 'n' | 'O' => 'o'
  | 'P' => 'p' | 'Q' => 'q' | 'R' => 'r' | 'S' => 's' | 'T' => 't'
  | 'U' => 'u' | 'V' => 'v' | 'W' => 'w' | 'X' => 'x' | 'Y' => 'y'
  | 'Z' => 'z'
  | c => c

/-- `String.prototype.toLowerCase` (ASCII). -/
def jsToLower (s : String) : String := ⟨s.data.map jsCharLower⟩

/-- `s.substring(0, n)`. -/
def jsSubstringTo (s : String) (n : Nat) : String := ⟨s.data.take n⟩

/-! ## Data model -/

/-- A normalized connection record as produced by `normalizeConnectionData`:
the fields the pipeline reads.  An absent field is the empty string (the
loader always materializes every field as a string). -/
structure Connection where
  fullName : String
  firstName : String
  lastName : String
  email : String
  emailAddress : String
  company : String
  position : String
  connectedOn : String
  url : String
deriving DecidableEq, Repr, Inhabited

/-- The result object built by `searchEmail` for one candidate. -/
structure LookupResult where
  name : String
  company : String
  position : String
  query : String
  response : String
  source : String
  email : String
  confidence : String
  searchResults : String
deriving DecidableEq, Repr, Inhabited

/-! ## Connection keys (`generateConnectionKey`, line 307) -/

/-- `generateConnectionKey(name, company)`:
`` `${name}|${company}`.toLowerCase().trim() `` — the concatenation is
lowercased and then trimmed as a whole. -/
def generateConnectionKey (name : String) (company : String) : String :=
  jsTrim (jsToLower (name ++ "|" ++ company))

/-- The dedup key of a connection record (`Full Name` and `Company`,
exactly as `processConnections` line 658 derives it). -/
def connKey (c : Connection) : String :=
  generateConnectionKey c.fullName c.company

/-- The dedup key re-derived from a `LookupResult`'s identity fields. -/
def resultKey (r : LookupResult) : String :=
  generateConnectionKey r.name r.company

/-- The key formula as the specification words it:
`lowercase(trim(name)) + "|" + lowercase(trim(company))` — each component
trimmed and lowercased individually before joining. -/
def specConnectionKey (name : String) (company : String) : String :=
  jsToLower (jsTrim name) ++ "|" ++ jsToLower (jsTrim company)

/-! ## JS `Set` model -/

/-- `set.add(k)`: append when absent (JS sets keep insertion order). -/
def setAdd (s : List String) (k : String) : List String :=
  if k ∈ s then s else s ++ [k]

/-- `new Set(arr)`. -/
def setFromList (l : List String) : List String :=
  l.foldl setAdd []

/-! ## Progress store (`loadProgress` 223, `saveProgress` 253) -/

/-- In-memory progress, as `loadProgress` returns it. -/
structure ProgressState where
  processedNames : List String
  results : List LookupResult
  startTime : Option String
  lastUpdate : Option String
deriving DecidableEq, Repr

/-- The empty progress object both error paths and a fresh run use. -/
def emptyProgress : ProgressState :=
  { processedNames := [], results := [], startTime := none, lastUpdate := none }

/-- The JSON object shape of the progress file; every field may be absent
(or `null`, which `loadProgress` treats identically). -/
structure StoredProgress where
  processedNames : Option (List String) := none
  results : Option (List LookupResult) := none
  startTime : Option String := none
  lastUpdate : Option String := none
  totalProcessed : Option Nat := none
deriving DecidableEq, Repr

/-- Durable-storage state for the progress file: `missing` (no file),
`unreadable` (read or JSON parse throws), or a parsed object. -/
inductive StorageState where
  | missing
  | unreadable
  | stored (p : StoredProgress)
deriving DecidableEq, Repr

/-- `x || null` on a string-or-null JS value: the empty string is falsy. -/
def jsOrNull : Option String → Option String
  | some s => if s = "" then none else some s
  | none => none

/-- `x || d` on a string-or-null JS value with string default `d`. -/
def jsOrString (o : Option String) (d : String) : String :=
  match o with
  | some s => if s = "" then d else s
  | none => d

/-- `loadProgress()` (lines 223-245): the try/catch around
existence check, read and `JSON.parse` becomes a match on `StorageState`;
each field is defaulted exactly as the source does
(`progress.processedNames || []`, `progress.results || []`,
`progress.startTime || null`, `progress.lastUpdate || null`). -/
def loadProgress : StorageState → ProgressState
  | .missing => emptyProgress
  | .unreadable => emptyProgress
  | .stored p =>
    { processedNames := setFromList (p.processedNames.getD [])
      results := p.results.getD []
      startTime := jsOrNull p.startTime
      lastUpdate := jsOrNull p.lastUpdate }

/-- `saveProgress(processedNames, results, startTime)` (lines 253-267):
the JSON object written to the progress file.  `now` is the clock value
`new Date().toISOString()` used for `lastUpdate`; both call sites pass a
string `startTime`. -/
def saveProgress (processedNames : List String) (results : List LookupResult)
    (startTime : String) (now : String) : StoredProgress :=
  { processedNames := some processedNames
    results := some results
    startTime := some startTime
    lastUpdate := some now
    totalProcessed := some processedNames.length }

/-! ## Lookup provider and `searchEmail` (lines 318-401) -/

/-- Outcome of the provider work inside `searchEmail`'s try block:
either the web-search text together with the AI response text, or the
message of whatever error was thrown (network, quota, malformed
response). -/
inductive ProviderOutcome where
  | ok (searchResults : String) (responseText : String)
  | err (message : String)
deriving DecidableEq, Repr

/-- The provider behaviour for a run: what the web search plus AI call
yield for a given (name, company, position) triple. -/
def Provider : Type := String → String → String → ProviderOutcome

/-- The three regex extractors `extractSource` / `extractEmail` /
`extractConfidence` applied to a successful AI response (lines 504-538),
abstracted: no verified property depends on their internals. -/
structure Extractors where
  source : String → String
  email : String → String
  confidence : String → String

/-- The query string `searchEmail` builds (lines 319-325): company and
position parts are appended only when truthy. -/
def buildQuery (name : String) (company : String) (position : String) : String :=
  let q := "Find business email for " ++ name
  let q := if company ≠ "" then q ++ " who works at " ++ company else q
  if position ≠ "" then q ++ " as " ++ position else q

/-- `searchResults.substring(0, 500) + '...'` (line 384). -/
def truncateSearchResults (s : String) : String :=
  jsSubstringTo s 500 ++ "..."

/-- `searchEmail(name, company, position)` (lines 318-401).  On success
the result carries the AI response and the extracted fields; the catch
block (lines 387-400) turns any thrown error into a result whose
`response` is the error message, with empty email/source, confidence
`LOW` and empty truncated search results. -/
def searchEmail (ex : Extractors) (P : Provider)
    (name : String) (company : String) (position : String) : LookupResult :=
  let query := buildQuery name company position
  match P name company position with
  | .ok searchResults responseText =>
    { name := name, company := company, position := position, query := query
      response := responseText
      source := ex.source responseText
      email := ex.email responseText
      confidence := ex.confidence responseText
      searchResults := truncateSearchResults searchResults }
  | .err message =>
    { name := name, company := company, position := position, query := query
      response := message
      source := ""
      email := ""
      confidence := "LOW"
      searchResults := "" }

/-! ## Candidate filtering (`processConnections` 561-585,
`filterProcessedConnections` 293-299) -/

/-- `conn.Email || conn['Email Address'] || ''`. -/
def connEmailValue (c : Connection) : String :=
  if c.email ≠ "" then c.email
  else if c.emailAddress ≠ "" then c.emailAddress
  else ""

/-- The missing-email test (lines 562-563):
`!email || email.trim() === '' || email === 'N/A'`. -/
def hasMissingEmail (c : Connection) : Bool :=
  let email := connEmailValue c
  email = "" || jsTrim email = "" || email = "N/A"

/-- `filterProcessedConnections(connections, processedNames)`
(lines 293-299): keep the records whose derived key is not in the
processed set. -/
def filterProcessedConnections (connections : List Connection)
    (processedNames : List String) : List Connection :=
  connections.filter fun conn =>
    !(decide (generateConnectionKey conn.fullName conn.company ∈ processedNames))

/-- Sample truncation (lines 577-579): `if (sampleSize && sampleSize > 0)
missingEmails.slice(0, sampleSize)`. -/
def applySample (sampleSize : Option Nat) (l : List Connection) : List Connection :=
  match sampleSize with
  | some k => if 0 < k then l.take k else l
  | none => l

/-- The candidate list `processConnections` iterates over: missing-email
records, minus already-processed keys when resuming with nonempty
progress (lines 567-574), truncated to the sample size (lines 577-579). -/
def candidateList (connections : List Connection) (sampleSize : Option Nat)
    (resume : Bool) (progress : ProgressState) : List Connection :=
  let missingEmails := connections.filter hasMissingEmail
  let missingEmails :=
    if resume ∧ 0 < progress.processedNames.length then
      filterProcessedConnections missingEmails progress.processedNames
    else missingEmails
  applySample sampleSize missingEmails

/-! ## The batch loop (`processConnections` 547-701) -/

/-- One incremental CSV write (`saveResultIncremental`, lines 746-769):
the record and whether this write emits the header row
(`append: !isFirstResult`). -/
structure SinkWrite where
  result : LookupResult
  withHeader : Bool
deriving DecidableEq, Repr

/-- One `saveProgress` call issued during a run: the arguments passed,
plus the length of `currentSession` at the moment of the call (the
1-based position of the record just completed; the unconditional final
save carries the full session length). -/
structure SaveCall where
  processedNames : List String
  results : List LookupResult
  startTime : String
  sessionCount : Nat
deriving DecidableEq, Repr

/-- The mutable state of the per-record loop. -/
structure LoopState where
  results : List LookupResult
  session : List LookupResult
  processed : List String
  sinkWrites : List SinkWrite
  saves : List SaveCall
  isFirstResult : Bool
  lookups : List Connection
deriving DecidableEq, Repr

/-- The name `searchEmail` is called with (line 643):
`connection['Full Name'] || firstName + ' ' + lastName`. -/
def lookupName (c : Connection) : String :=
  if c.fullName ≠ "" then c.fullName else c.firstName ++ " " ++ c.lastName

/-- The lookup `processConnections` issues for one candidate
(lines 642-646). -/
def searchEmailFor (ex : Extractors) (P : Provider) (c : Connection) : LookupResult :=
  searchEmail ex P (lookupName c) c.company c.position

/-- The body of the per-record loop (lines 635-679): look up, push the
result, write it to the CSV (with the header only on the first write of a
first session), mark the key processed, and checkpoint when the session
count is a multiple of 5 or this is the last record. -/
def runStep (ex : Extractors) (P : Provider) (startTime : String) (total : Nat)
    (globalIndex : Nat) (st : LoopState) (c : Connection) : LoopState :=
  let result := searchEmailFor ex P c
  let session := st.session ++ [result]
  let results := st.results ++ [result]
  let sinkWrites := st.sinkWrites ++ [⟨result, st.isFirstResult⟩]
  let key := generateConnectionKey c.fullName c.company
  let processed := setAdd st.processed key
  let saves :=
    if session.length % 5 = 0 ∨ (0 < session.length ∧ globalIndex = total - 1) then
      st.saves ++ [⟨processed, results, startTime, session.length⟩]
    else st.saves
  { results := results, session := session, processed := processed
    sinkWrites := sinkWrites, saves := saves
    isFirstResult := false, lookups := st.lookups ++ [c] }

/-- The sequential loop over the candidate list, `globalIndex` counting
from 0 (the source's batch grouping only feeds the progress bar). -/
def processLoop (ex : Extractors) (P : Provider) (startTime : String) (total : Nat) :
    List Connection → Nat → LoopState → LoopState
  | [], _, st => st
  | c :: rest, idx, st =>
    processLoop ex P startTime total rest (idx + 1)
      (runStep ex P startTime total idx st c)

/-- Everything `processConnections` observably does. -/
structure RunOutput where
  returnedResults : List LookupResult
  lookups : List Connection
  sinkWrites : List SinkWrite
  saves : List SaveCall
  finalProcessed : List String
  totalMissing : Nat
deriving DecidableEq, Repr

/-- `processConnections` after the progress object is in hand
(lines 560-700).  `csvExists` is `this.csvFileExists()` (output file
exists and is non-empty, lines 775-785); `nowIso` is the clock value used
when a fresh lineage needs a start timestamp. -/
def processConnectionsCore (ex : Extractors) (P : Provider)
    (connections : List Connection) (sampleSize : Option Nat) (resume : Bool)
    (progress : ProgressState) (csvExists : Bool) (nowIso : String) : RunOutput :=
  let missingEmails := candidateList connections sampleSize resume progress
  let total := missingEmails.length
  let totalMissing := (connections.filter hasMissingEmail).length
  if total = 0 then
    { returnedResults := progress.results, lookups := [], sinkWrites := []
      saves := [], finalProcessed := progress.processedNames
      totalMissing := totalMissing }
  else
    let initResults := if resume then progress.results else []
    let startTime := jsOrString progress.startTime nowIso
    let isFirstSession := !resume || !csvExists
    let final := processLoop ex P startTime total missingEmails 0
      { results := initResults, session := [], processed := progress.processedNames
        sinkWrites := [], saves := [], isFirstResult := isFirstSession, lookups := [] }
    { returnedResults := final.results
      lookups := final.lookups
      sinkWrites := final.sinkWrites
      saves := final.saves ++ [⟨final.processed, final.results, startTime, final.session.length⟩]
      finalProcessed := final.processed
      totalMissing := totalMissing }

/-- The progress object the run starts from (lines 548-558): loaded from
storage when resuming, otherwise the fresh empty object. -/
def loadedProgressFor (resume : Bool) (storage : StorageState) : ProgressState :=
  if resume then loadProgress storage else emptyProgress

/-- `processConnections(connections, sampleSize, resume)`
(lines 547-701), with the durable environment made explicit. -/
def processConnections (ex : Extractors) (P : Provider)
    (connections : List Connection) (sampleSize : Option Nat) (resume : Bool)
    (storage : StorageState) (csvExists : Bool) (nowIso : String) : RunOutput :=
  processConnectionsCore ex P connections sampleSize resume
    (loadedProgressFor resume storage) csvExists nowIso

/-! ## Specification-side predicates -/

/-- The specification's candidate criterion: the record's email value
(resolved across both field spellings) is absent/empty, whitespace-only,
or the sentinel string `N/A`. -/
def specIsCandidate (c : Connection) : Prop :=
  connEmailValue c = "" ∨ jsTrim (connEmailValue c) = "" ∨ connEmailValue c = "N/A"

/-- Number of results in a sequence whose derived key is `k`. -/
def countKey (rs : List LookupResult) (k : String) : Nat :=
  (rs.filter fun r => decide (resultKey r = k)).length

/-- The spec's ProgressState invariant: each key of the processed set
corresponds to exactly one result of the sequence, and no unprocessed key
has a result. -/
def progressInv (processed : List String) (rs : List LookupResult) : Prop :=
  ∀ k, countKey rs k = if k ∈ processed then 1 else 0

/-- Expected header-flag sequence for `n` incremental writes when the
first write's flag is `b`. -/
def headerFlags (b : Bool) : Nat → List Bool
  | 0 => []
  | n + 1 => b :: List.replicate n false

/-! ## Concrete fixtures for counterexamples and witnesses -/

/-- Extractors used in concrete evaluations (their behaviour is
irrelevant to every property checked on concrete runs). -/
def exampleExtractors : Extractors :=
  { source := fun _ => "", email := fun _ => "", confidence := fun _ => "LOW" }

/-- A provider whose every lookup throws. -/
def exampleProvider : Provider := fun _ _ _ => .err "network timeout"

/-- A provider whose every lookup succeeds. -/
def exampleProviderOk : Provider := fun _ _ _ => .ok "some search text" "EMAIL: NOT_FOUND"

def connAna : Connection :=
  { fullName := "Ana", firstName := "Ana", lastName := "", email := ""
    emailAddress := "", company := "Acme", position := "", connectedOn := "", url := "" }

def connBob : Connection :=
  { fullName := "Bob", firstName := "Bob", lastName := "", email := ""
    emailAddress := "", company := "Beta", position := "", connectedOn := "", url := "" }

def connCyd : Connection :=
  { fullName := "Cyd", firstName := "Cyd", lastName := "", email := ""
    emailAddress := "", company := "Ceta", position := "", connectedOn := "", url := "" }

def connDee : Connection :=
  { fullName := "Dee", firstName := "Dee", lastName := "", email := "dee@x.com"
    emailAddress := "", company := "Delta", position := "", connectedOn := "", url := "" }

/-- Three candidates without email plus one record that already has one. -/
def exampleConns : List Connection := [connAna, connBob, connCyd, connDee]

def exampleResult : LookupResult :=
  { name := "Zoe", company := "Zed", position := "", query := "q"
    response := "resp", source := "", email := "", confidence := "LOW", searchResults := "" }

/-! ## Set-model lemmas -/

theorem mem_setAdd {s : List String} {k a : String} :
    a ∈ setAdd s k ↔ a ∈ s ∨ a = k := by
  unfold setAdd
  split
  · constructor
    · exact Or.inl
    · rintro (h | rfl) <;> [exact h; assumption]
  · simp [or_comm]

theorem setAdd_nodup {s : List String} {k : String} (h : s.Nodup) :
    (setAdd s k).Nodup := by
  unfold setAdd
  split
  · exact h
  · simpa [List.nodup_append] using ⟨h, by assumption⟩

theorem mem_foldl_setAdd (l : List String) (acc : List String) (a : String) :
    a ∈ l.foldl setAdd acc ↔ a ∈ acc ∨ a ∈ l := by
  induction l generalizing acc with
  | nil => simp
  | cons x t ih =>
    simp only [List.foldl_cons, ih, mem_setAdd, List.mem_cons]
    tauto

theorem foldl_setAdd_eq_append (l : List String) (acc : List String)
    (h : (acc ++ l).Nodup) : l.foldl setAdd acc = acc ++ l := by
  induction l generalizing acc with
  | nil => simp
  | cons x t ih =>
    have hx : x ∉ acc := by
      rcases List.nodup_append.mp h with ⟨-, -, hd⟩
      intro hmem
      exact hd hmem (List.mem_cons_self x t)
    have hadd : setAdd acc x = acc ++ [x] := by
      unfold setAdd
      exact if_neg hx
    have h' : ((acc ++ [x]) ++ t).Nodup := by
      simpa [List.append_assoc] using h
    calc (x :: t).foldl setAdd acc = t.foldl setAdd (acc ++ [x]) := by
          simp [List.foldl_cons, hadd]
      _ = (acc ++ [x]) ++ t := ih (acc ++ [x]) h'
      _ = acc ++ x :: t := by simp [List.append_assoc]

theorem setFromList_eq_self {l : List String} (h : l.Nodup) :
    setFromList l = l := by
  simpa [setFromList] using foldl_setAdd_eq_append l [] (by simpa using h)

theorem mem_setFromList {l : List String} {a : String} :
    a ∈ setFromList l ↔ a ∈ l := by
  simp [setFromList, mem_foldl_setAdd]

theorem setFromList_nodup (l : List String) : (setFromList l).Nodup := by
  have aux : ∀ (t acc : List String), acc.Nodup → (t.foldl setAdd acc).Nodup := by
    intro t
    induction t with
    | nil => intro acc h; simpa using h
    | cons x r ih => intro acc h; exact ih _ (setAdd_nodup h)
  exact aux l [] List.nodup_nil

/-! ## `searchEmail` field lemmas -/

theorem searchEmail_name (ex : Extractors) (P : Provider) (n co po : String) :
    (searchEmail ex P n co po).name = n := by
  unfold searchEmail
  cases P n co po <;> rfl

theorem searchEmail_company (ex : Extractors) (P : Provider) (n co po : String) :
    (searchEmail ex P n co po).company = co := by
  unfold searchEmail
  cases P n co po <;> rfl

theorem lookupName_of_fullName {c : Connection} (h : c.fullName ≠ "") :
    lookupName c = c.fullName := by
  unfold lookupName
  exact if_pos h

theorem resultKey_searchEmailFor (ex : Extractors) (P : Provider) {c : Connection}
    (h : c.fullName ≠ "") : resultKey (searchEmailFor ex P c) = connKey c := by
  unfold resultKey searchEmailFor connKey
  rw [searchEmail_name, searchEmail_company, lookupName_of_fullName h]

/-! ## Candidate-list lemmas -/

theorem mem_filterProcessedConnections {l : List Connection} {s : List String}
    {c : Connection} :
    c ∈ filterProcessedConnections l s ↔ c ∈ l ∧ connKey c ∉ s := by
  simp [filterProcessedConnections, List.mem_filter, connKey]

theorem filterProcessedConnections_nil (l : List Connection) :
    filterProcessedConnections l [] = l := by
  unfold filterProcessedConnections
  induction l with
  | nil => rfl
  | cons c t ih => simp [List.filter_cons, ih]

theorem filterProcessedConnections_sublist (l : List Connection) (s : List String) :
    (filterProcessedConnections l s).Sublist l :=
  List.filter_sublist l

theorem applySample_sublist (ss : Option Nat) (l : List Connection) :
    (applySample ss l).Sublist l := by
  unfold applySample
  split
  · split
    · exact List.take_sublist _ l
    · exact List.Sublist.refl l
  · exact List.Sublist.refl l

theorem candidateList_sublist_missing (conns : List Connection) (ss : Option Nat)
    (resume : Bool) (p : ProgressState) :
    (candidateList conns ss resume p).Sublist (conns.filter hasMissingEmail) := by
  unfold candidateList
  split
  · exact (applySample_sublist _ _).trans (filterProcessedConnections_sublist _ _)
  · exact applySample_sublist _ _

theorem candidateList_subset (conns : List Connection) (ss : Option Nat)
    (resume : Bool) (p : ProgressState) :
    ∀ c ∈ candidateList conns ss resume p, c ∈ conns := by
  intro c hc
  exact List.mem_of_mem_filter
    ((candidateList_sublist_missing conns ss resume p).subset hc)

theorem candidateList_resume_eq (conns : List Connection) (ss : Option Nat)
    (p : ProgressState) :
    candidateList conns ss true p
      = applySample ss
          (filterProcessedConnections (conns.filter hasMissingEmail) p.processedNames) := by
  unfold candidateList
  split
  · rfl
  · rename_i hcond
    have hlen : p.processedNames.length = 0 := by
      by_contra hne
      exact hcond ⟨rfl, Nat.pos_of_ne_zero hne⟩
    rw [List.length_eq_zero.mp hlen, filterProcessedConnections_nil]

theorem candidateList_key_not_processed (conns : List Connection) (ss : Option Nat)
    (resume : Bool) (storage : StorageState) :
    ∀ c ∈ candidateList conns ss resume (loadedProgressFor resume storage),
      connKey c ∉ (loadedProgressFor resume storage).processedNames := by
  intro c hc
  cases resume with
  | false =>
    simp [loadedProgressFor, emptyProgress]
  | true =>
    rw [candidateList_resume_eq] at hc
    have hmem := (applySample_sublist ss _).subset hc
    exact (mem_filterProcessedConnections.mp hmem).2

/-! ## Trim and lowercase lemmas (for the key-derivation claim) -/

theorem jsCharLower_not_ws (c : Char) (h : c.isWhitespace = false) :
    (jsCharLower c).isWhitespace = false := by
  unfold jsCharLower
  split <;> first | decide | exact h

theorem dropWhile_ws_cons_self {a : Char} {as : List Char}
    (h : a.isWhitespace = false) :
    (a :: as).dropWhile Char.isWhitespace = a :: as := by
  simp [List.dropWhile_cons, h]

theorem head_not_ws {a : Char} {as : List Char}
    (h : (a :: as).dropWhile Char.isWhitespace = a :: as) :
    a.isWhitespace = false := by
  by_contra hws
  simp only [Bool.not_eq_false] at hws
  rw [List.dropWhile_cons, if_pos hws] at h
  have hle := (List.dropWhile_sublist (l := as) Char.isWhitespace).length_le
  have := congrArg List.length h
  simp at this
  omega

theorem map_lower_dropWhile_self {l : List Char}
    (h : l.dropWhile Char.isWhitespace = l) :
    (l.map jsCharLower).dropWhile Char.isWhitespace = l.map jsCharLower := by
  cases l with
  | nil => simp
  | cons a as =>
    simp only [List.map_cons]
    exact dropWhile_ws_cons_self (jsCharLower_not_ws _ (head_not_ws h))

theorem dropWhile_eq_of_trim {l : List Char} (h : trimChars l = l) :
    l.dropWhile Char.isWhitespace = l := by
  have hsub := List.dropWhile_sublist (l := l) Char.isWhitespace
  apply hsub.eq_of_length
  have h1 := (List.dropWhile_sublist
    (l := (l.dropWhile Char.isWhitespace).reverse) Char.isWhitespace).length_le
  have h2 := congrArg List.length h
  simp only [trimChars, dropLeadingWs, List.length_reverse] at h2
  have h3 := hsub.length_le
  have h4 : (l.dropWhile Char.isWhitespace).reverse.length
      = (l.dropWhile Char.isWhitespace).length := List.length_reverse _
  omega

theorem dropWhile_reverse_eq_of_trim {l : List Char} (h : trimChars l = l) :
    l.reverse.dropWhile Char.isWhitespace = l.reverse := by
  have h1 := dropWhile_eq_of_trim h
  unfold trimChars dropLeadingWs at h
  rw [h1] at h
  have := congrArg List.reverse h
  simpa using this

theorem dropWhile_ws_append_bar {X Y : List Char}
    (hX : X.dropWhile Char.isWhitespace = X) :
    (X ++ '|' :: Y).dropWhile Char.isWhitespace = X ++ '|' :: Y := by
  cases X with
  | nil =>
    simp only [List.nil_append]
    exact dropWhile_ws_cons_self (by decide)
  | cons a as =>
    simp only [List.cons_append]
    exact dropWhile_ws_cons_self (head_not_ws hX)

theorem trimChars_append_bar {X Y : List Char}
    (hX : X.dropWhile Char.isWhitespace = X)
    (hYr : Y.reverse.dropWhile Char.isWhitespace = Y.reverse) :
    trimChars (X ++ '|' :: Y) = X ++ '|' :: Y := by
  unfold trimChars dropLeadingWs
  rw [dropWhile_ws_append_bar hX]
  have hrev : (X ++ '|' :: Y).reverse = Y.reverse ++ '|' :: X.reverse := by
    simp [List.reverse_append, List.append_assoc]
  rw [hrev, dropWhile_ws_append_bar hYr, ← hrev, List.reverse_reverse]

/-! ## Loop characterization lemmas -/

theorem headerFlags_false (n : Nat) : headerFlags false n = List.replicate n false := by
  cases n <;> simp [headerFlags, List.replicate_succ]

theorem processLoop_lookups (ex : Extractors) (P : Provider) (t : String) (tot : Nat) :
    ∀ (l : List Connection) (idx : Nat) (st : LoopState),
      (processLoop ex P t tot l idx st).lookups = st.lookups ++ l := by
  intro l
  induction l with
  | nil => intro idx st; simp [processLoop]
  | cons c rest ih =>
    intro idx st
    show (processLoop ex P t tot rest (idx + 1) (runStep ex P t tot idx st c)).lookups = _
    rw [ih]
    show (st.lookups ++ [c]) ++ rest = st.lookups ++ c :: rest
    simp

theorem processLoop_results (ex : Extractors) (P : Provider) (t : String) (tot : Nat) :
    ∀ (l : List Connection) (idx : Nat) (st : LoopState),
      (processLoop ex P t tot l idx st).results
        = st.results ++ l.map (searchEmailFor ex P) := by
  intro l
  induction l with
  | nil => intro idx st; simp [processLoop]
  | cons c rest ih =>
    intro idx st
    show (processLoop ex P t tot rest (idx + 1) (runStep ex P t tot idx st c)).results = _
    rw [ih]
    show (st.results ++ [searchEmailFor ex P c]) ++ rest.map (searchEmailFor ex P) = _
    simp

theorem processLoop_session (ex : Extractors) (P : Provider) (t : String) (tot : Nat) :
    ∀ (l : List Connection) (idx : Nat) (st : LoopState),
      (processLoop ex P t tot l idx st).session
        = st.session ++ l.map (searchEmailFor ex P) := by
  intro l
  induction l with
  | nil => intro idx st; simp [processLoop]
  | cons c rest ih =>
    intro idx st
    show (processLoop ex P t tot rest (idx + 1) (runStep ex P t tot idx st c)).session = _
    rw [ih]
    show (st.session ++ [searchEmailFor ex P c]) ++ rest.map (searchEmailFor ex P) = _
    simp

theorem processLoop_processed (ex : Extractors) (P : Provider) (t : String) (tot : Nat) :
    ∀ (l : List Connection) (idx : Nat) (st : LoopState),
      (processLoop ex P t tot l idx st).processed
        = (l.map connKey).foldl setAdd st.processed := by
  intro l
  induction l with
  | nil => intro idx st; simp [processLoop]
  | cons c rest ih =>
    intro idx st
    show (processLoop ex P t tot rest (idx + 1) (runStep ex P t tot idx st c)).processed = _
    rw [ih]
    rfl

theorem processLoop_sink_results (ex : Extractors) (P : Provider) (t : String) (tot : Nat) :
    ∀ (l : List Connection) (idx : Nat) (st : LoopState),
      (processLoop ex P t tot l idx st).sinkWrites.map (fun w => w.result)
        = st.sinkWrites.map (fun w => w.result) ++ l.map (searchEmailFor ex P) := by
  intro l
  induction l with
  | nil => intro idx st; simp [processLoop]
  | cons c rest ih =>
    intro idx st
    show (processLoop ex P t tot rest (idx + 1) (runStep ex P t tot idx st c)).sinkWrites.map _ = _
    rw [ih]
    show (st.sinkWrites ++ ([⟨searchEmailFor ex P c, st.isFirstResult⟩] : List SinkWrite)).map
          (fun w => w.result)
        ++ rest.map (searchEmailFor ex P) = _
    simp

theorem processLoop_sink_headers (ex : Extractors) (P : Provider) (t : String) (tot : Nat) :
    ∀ (l : List Connection) (idx : Nat) (st : LoopState),
      (processLoop ex P t tot l idx st).sinkWrites.map (fun w => w.withHeader)
        = st.sinkWrites.map (fun w => w.withHeader) ++ headerFlags st.isFirstResult l.length := by
  intro l
  induction l with
  | nil => intro idx st; simp [processLoop, headerFlags]
  | cons c rest ih =>
    intro idx st
    show (processLoop ex P t tot rest (idx + 1) (runStep ex P t tot idx st c)).sinkWrites.map _ = _
    rw [ih]
    show (st.sinkWrites ++ ([⟨searchEmailFor ex P c, st.isFirstResult⟩] : List SinkWrite)).map
          (fun w => w.withHeader)
        ++ headerFlags false rest.length = _
    rw [headerFlags_false]
    simp [headerFlags]

theorem runStep_saves_map (ex : Extractors) (P : Provider) (t : String) (tot : Nat)
    (idx : Nat) (st : LoopState) (c : Connection)
    (hsess : st.session.length = idx) (htot : 0 < tot) :
    (runStep ex P t tot idx st c).saves.map (fun s => s.sessionCount)
      = st.saves.map (fun s => s.sessionCount)
        ++ (if (idx + 1) % 5 = 0 ∨ idx + 1 = tot then [idx + 1] else []) := by
  have hred : (runStep ex P t tot idx st c).saves
      = if ((st.session ++ [searchEmailFor ex P c]).length % 5 = 0
            ∨ (0 < (st.session ++ [searchEmailFor ex P c]).length ∧ idx = tot - 1))
        then st.saves ++ [⟨setAdd st.processed (connKey c),
              st.results ++ [searchEmailFor ex P c], t,
              (st.session ++ [searchEmailFor ex P c]).length⟩]
        else st.saves := rfl
  rw [hred]
  simp only [List.length_append, List.length_singleton, hsess]
  have hiff : ((idx + 1) % 5 = 0 ∨ (0 < idx + 1 ∧ idx = tot - 1))
      ↔ ((idx + 1) % 5 = 0 ∨ idx + 1 = tot) := by omega
  by_cases hc : (idx + 1) % 5 = 0 ∨ idx + 1 = tot
  · rw [if_pos (hiff.mpr hc), if_pos hc]
    simp
  · rw [if_neg (fun h => hc (hiff.mp h)), if_neg hc]
    simp

theorem processLoop_saves (ex : Extractors) (P : Provider) (t : String) (tot : Nat)
    (htot : 0 < tot) :
    ∀ (l : List Connection) (idx : Nat) (st : LoopState), st.session.length = idx →
      (processLoop ex P t tot l idx st).saves.map (fun s => s.sessionCount)
        = st.saves.map (fun s => s.sessionCount)
          ++ (List.range' (idx + 1) l.length).filter
              (fun j => decide (j % 5 = 0 ∨ j = tot)) := by
  intro l
  induction l with
  | nil => intro idx st _; simp [processLoop]
  | cons c rest ih =>
    intro idx st hsess
    have hsess' : (runStep ex P t tot idx st c).session.length = idx + 1 := by
      show (st.session ++ [searchEmailFor ex P c]).length = idx + 1
      simp [hsess]
    show (processLoop ex P t tot rest (idx + 1) (runStep ex P t tot idx st c)).saves.map _ = _
    rw [ih (idx + 1) _ hsess', runStep_saves_map ex P t tot idx st c hsess htot]
    simp only [List.length_cons]
    rw [List.range'_succ, List.filter_cons]
    by_cases hc : (idx + 1) % 5 = 0 ∨ idx + 1 = tot
    · have hd : decide ((idx + 1) % 5 = 0 ∨ idx + 1 = tot) = true := by simpa using hc
      rw [if_pos hc, if_pos hd]
      simp [List.append_assoc]
    · have hd : decide ((idx + 1) % 5 = 0 ∨ idx + 1 = tot) = false := by simpa using hc
      rw [if_neg hc, if_neg (by simp [hd])]
      simp

/-! ## Run-level characterization lemmas -/

theorem initResults_eq (resume : Bool) (storage : StorageState) :
    (if resume then (loadedProgressFor resume storage).results else [])
      = (loadedProgressFor resume storage).results := by
  cases resume with
  | false => simp [loadedProgressFor, emptyProgress]
  | true => simp

theorem processConnections_lookups (ex : Extractors) (P : Provider)
    (conns : List Connection) (ss : Option Nat) (resume : Bool)
    (storage : StorageState) (csvE : Bool) (now : String) :
    (processConnections ex P conns ss resume storage csvE now).lookups
      = candidateList conns ss resume (loadedProgressFor resume storage) := by
  simp only [processConnections, processConnectionsCore]
  split
  · rename_i h
    exact (List.length_eq_zero.mp h).symm
  · rw [processLoop_lookups]
    simp

theorem processConnections_returnedResults (ex : Extractors) (P : Provider)
    (conns : List Connection) (ss : Option Nat) (resume : Bool)
    (storage : StorageState) (csvE : Bool) (now : String) :
    (processConnections ex P conns ss resume storage csvE now).returnedResults
      = (loadedProgressFor resume storage).results
        ++ (candidateList conns ss resume (loadedProgressFor resume storage)).map
            (searchEmailFor ex P) := by
  simp only [processConnections, processConnectionsCore]
  split
  · rename_i h
    rw [List.length_eq_zero.mp h]
    simp
  · rw [processLoop_results]
    rw [initResults_eq]

theorem processConnections_sink_results (ex : Extractors) (P : Provider)
    (conns : List Connection) (ss : Option Nat) (resume : Bool)
    (storage : StorageState) (csvE : Bool) (now : String) :
    (processConnections ex P conns ss resume storage csvE now).sinkWrites.map
        (fun w => w.result)
      = (candidateList conns ss resume (loadedProgressFor resume storage)).map
          (searchEmailFor ex P) := by
  simp only [processConnections, processConnectionsCore]
  split
  · rename_i h
    rw [List.length_eq_zero.mp h]
    simp
  · rw [processLoop_sink_results]
    simp

theorem processConnections_sink_headers (ex : Extractors) (P : Provider)
    (conns : List Connection) (ss : Option Nat) (resume : Bool)
    (storage : StorageState) (csvE : Bool) (now : String) :
    (processConnections ex P conns ss resume storage csvE now).sinkWrites.map
        (fun w => w.withHeader)
      = headerFlags (!resume || !csvE)
          (candidateList conns ss resume (loadedProgressFor resume storage)).length := by
  simp only [processConnections, processConnectionsCore]
  split
  · rename_i h
    rw [h]
    simp [headerFlags]
  · rw [processLoop_sink_headers]
    simp

theorem processConnections_finalProcessed (ex : Extractors) (P : Provider)
    (conns : List Connection) (ss : Option Nat) (resume : Bool)
    (storage : StorageState) (csvE : Bool) (now : String) :
    (processConnections ex P conns ss resume storage csvE now).finalProcessed
      = ((candidateList conns ss resume (loadedProgressFor resume storage)).map
          connKey).foldl setAdd (loadedProgressFor resume storage).processedNames := by
  simp only [processConnections, processConnectionsCore]
  split
  · rename_i h
    rw [List.length_eq_zero.mp h]
    simp
  · rw [processLoop_processed]

theorem processConnections_totalMissing (ex : Extractors) (P : Provider)
    (conns : List Connection) (ss : Option Nat) (resume : Bool)
    (storage : StorageState) (csvE : Bool) (now : String) :
    (processConnections ex P conns ss resume storage csvE now).totalMissing
      = (conns.filter hasMissingEmail).length := by
  simp only [processConnections, processConnectionsCore]
  split <;> rfl

theorem processConnections_saves (ex : Extractors) (P : Provider)
    (conns : List Connection) (ss : Option Nat) (resume : Bool)
    (storage : StorageState) (csvE : Bool) (now : String)
    (h : 0 < (candidateList conns ss resume (loadedProgressFor resume storage)).length) :
    (processConnections ex P conns ss resume storage csvE now).saves.map
        (fun s => s.sessionCount)
      = (List.range' 1
            (candidateList conns ss resume (loadedProgressFor resume storage)).length).filter
          (fun j => decide (j % 5 = 0
            ∨ j = (candidateList conns ss resume (loadedProgressFor resume storage)).length))
        ++ [(candidateList conns ss resume (loadedProgressFor resume storage)).length] := by
  simp only [processConnections, processConnectionsCore]
  rw [if_neg (Nat.pos_iff_ne_zero.mp h)]
  have hloop := processLoop_saves ex P
    (jsOrString (loadedProgressFor resume storage).startTime now)
    (candidateList conns ss resume (loadedProgressFor resume storage)).length h
    (candidateList conns ss resume (loadedProgressFor resume storage)) 0
    { results := if resume then (loadedProgressFor resume storage).results else []
      session := []
      processed := (loadedProgressFor resume storage).processedNames
      sinkWrites := []
      saves := []
      isFirstResult := !resume || !csvE
      lookups := [] } rfl
  rw [List.map_append, hloop]
  rw [processLoop_session]
  simp

theorem processConnections_last_save (ex : Extractors) (P : Provider)
    (conns : List Connection) (ss : Option Nat) (resume : Bool)
    (storage : StorageState) (csvE : Bool) (now : String)
    (h : 0 < (candidateList conns ss resume (loadedProgressFor resume storage)).length) :
    (processConnections ex P conns ss resume storage csvE now).saves.getLast?
      = some ⟨((candidateList conns ss resume (loadedProgressFor resume storage)).map
              connKey).foldl setAdd (loadedProgressFor resume storage).processedNames,
          (loadedProgressFor resume storage).results
            ++ (candidateList conns ss resume (loadedProgressFor resume storage)).map
                (searchEmailFor ex P),
          jsOrString (loadedProgressFor resume storage).startTime now,
          (candidateList conns ss resume (loadedProgressFor resume storage)).length⟩ := by
  simp only [processConnections, processConnectionsCore]
  rw [if_neg (Nat.pos_iff_ne_zero.mp h)]
  rw [List.getLast?_concat]
  rw [processLoop_processed, processLoop_results, processLoop_session, initResults_eq]
  simp

/-! ## Progress-invariant lemmas -/

theorem countKey_append (rs : List LookupResult) (r : LookupResult) (k : String) :
    countKey (rs ++ [r]) k = countKey rs k + (if resultKey r = k then 1 else 0) := by
  unfold countKey
  rw [List.filter_append, List.length_append]
  congr 1
  rw [List.filter_cons]
  by_cases hr : resultKey r = k
  · rw [if_pos (by simpa using hr), if_pos hr]
    simp
  · rw [if_neg (by simpa using hr), if_neg hr]
    simp

theorem progressInv_extend (ex : Extractors) (P : Provider) :
    ∀ (l : List Connection) (S : List String) (R : List LookupResult),
      (∀ c ∈ l, c.fullName ≠ "") →
      (l.map connKey).Nodup →
      (∀ c ∈ l, connKey c ∉ S) →
      progressInv S R →
      progressInv ((l.map connKey).foldl setAdd S) (R ++ l.map (searchEmailFor ex P)) := by
  intro l
  induction l with
  | nil =>
    intro S R _ _ _ hinv
    simpa using hinv
  | cons c rest ih =>
    intro S R hname hnodup hdisj hinv
    simp only [List.map_cons, List.foldl_cons]
    have hkey : resultKey (searchEmailFor ex P c) = connKey c :=
      resultKey_searchEmailFor ex P (hname c (List.mem_cons_self c rest))
    have hstep : progressInv (setAdd S (connKey c)) (R ++ [searchEmailFor ex P c]) := by
      intro k
      rw [countKey_append, hkey]
      by_cases hk : k = connKey c
      · subst hk
        have h0 : countKey R (connKey c) = 0 := by
          have hv := hinv (connKey c)
          rwa [if_neg (hdisj c (List.mem_cons_self c rest))] at hv
        rw [h0, if_pos rfl, if_pos (mem_setAdd.mpr (Or.inr rfl))]
      · have hmem : (k ∈ setAdd S (connKey c)) ↔ k ∈ S := by
          rw [mem_setAdd]
          constructor
          · rintro (hh | hh)
            · exact hh
            · exact absurd hh hk
          · exact Or.inl
        rw [if_neg (fun hh => hk hh.symm), if_congr hmem rfl rfl, Nat.add_zero]
        exact hinv k
    have hrec := ih (setAdd S (connKey c)) (R ++ [searchEmailFor ex P c])
      (fun c' hc' => hname c' (List.mem_cons_of_mem c hc'))
      hnodup.of_cons
      (by
        intro c' hc'
        rw [mem_setAdd]
        rintro (hh | hh)
        · exact hdisj c' (List.mem_cons_of_mem c hc') hh
        · have hcmem : connKey c' ∈ rest.map connKey := List.mem_map_of_mem connKey hc'
          rw [hh] at hcmem
          exact (List.nodup_cons.mp hnodup).1 hcmem)
      hstep
    simpa [List.append_assoc] using hrec

theorem lookup_key_mem_finalProcessed (ex : Extractors) (P : Provider)
    (conns : List Connection) (ss : Option Nat) (resume : Bool)
    (storage : StorageState) (csvE : Bool) (now : String) :
    ∀ c ∈ (processConnections ex P conns ss resume storage csvE now).lookups,
      connKey c ∈ (processConnections ex P conns ss resume storage csvE now).finalProcessed := by
  intro c hc
  rw [processConnections_lookups] at hc
  rw [processConnections_finalProcessed]
  exact (mem_foldl_setAdd _ _ _).mpr (Or.inr (List.mem_map_of_mem connKey hc))

/-! ## Claims -/

/-- Claim C3, counterexample: the derived key is not
`lowercase(trim(name)) + "|" + lowercase(trim(company))` — a trailing
space in the name survives next to the separator, because the source
trims the joined string as a whole. -/
theorem claim_c3_counterexample :
    generateConnectionKey "John " "Acme" ≠ specConnectionKey "John " "Acme" := by
  decide

/-- Claim C3, amended: the derived key lowercases the joined string
`name + "|" + company` and trims only its outer ends; whenever name and
company themselves carry no leading or trailing whitespace this agrees
with the specification's componentwise formula. -/
theorem claim_c3_amended (name company : String)
    (hn : jsTrim name = name) (hc : jsTrim company = company) :
    generateConnectionKey name company = specConnectionKey name company := by
  unfold specConnectionKey
  rw [hn, hc]
  apply String.ext
  have hn' : trimChars name.data = name.data := congrArg String.data hn
  have hc' : trimChars company.data = company.data := congrArg String.data hc
  show trimChars (((name.data ++ ['|']) ++ company.data).map jsCharLower)
      = (name.data.map jsCharLower ++ ['|']) ++ company.data.map jsCharLower
  have hassoc : (name.data ++ ['|']) ++ company.data = name.data ++ '|' :: company.data := by
    simp [List.append_assoc]
  rw [hassoc, List.map_append, List.map_cons]
  show trimChars (name.data.map jsCharLower ++ '|' :: company.data.map jsCharLower)
      = (name.data.map jsCharLower ++ ['|']) ++ company.data.map jsCharLower
  rw [trimChars_append_bar
    (map_lower_dropWhile_self (dropWhile_eq_of_trim hn'))
    (by
      rw [← List.map_reverse]
      exact map_lower_dropWhile_self (dropWhile_reverse_eq_of_trim hc'))]
  simp [List.append_assoc]

/-- Claim C3 witness: on already-trimmed inputs the two key formulas
agree. -/
theorem claim_c3_amended_witness :
    jsTrim "John" = "John" ∧ jsTrim "Acme" = "Acme"
      ∧ generateConnectionKey "John" "Acme" = specConnectionKey "John" "Acme" :=
  ⟨by decide, by decide, claim_c3_amended "John" "Acme" (by decide) (by decide)⟩

/-- Claim C6: loadProgress is total over every storage state; a missing
or unreadable/unparseable progress file yields the empty state, and a
parsed object yields its stored processed names as a set, its stored
results, and its stored timestamps, each absent field defaulting to
empty or null. -/
theorem claim_c6 :
    loadProgress .missing = emptyProgress
    ∧ loadProgress .unreadable = emptyProgress
    ∧ ∀ p : StoredProgress,
        (loadProgress (.stored p)).processedNames.Nodup
        ∧ (∀ k, k ∈ (loadProgress (.stored p)).processedNames
            ↔ k ∈ p.processedNames.getD [])
        ∧ (loadProgress (.stored p)).results = p.results.getD []
        ∧ (p.startTime = none → (loadProgress (.stored p)).startTime = none)
        ∧ (∀ s, p.startTime = some s → s ≠ ""
            → (loadProgress (.stored p)).startTime = some s)
        ∧ (p.lastUpdate = none → (loadProgress (.stored p)).lastUpdate = none)
        ∧ (∀ s, p.lastUpdate = some s → s ≠ ""
            → (loadProgress (.stored p)).lastUpdate = some s) := by
  refine ⟨rfl, rfl, fun p => ⟨setFromList_nodup _, fun k => mem_setFromList, rfl, ?_, ?_, ?_, ?_⟩⟩
  · intro h
    show jsOrNull p.startTime = none
    rw [h]
    rfl
  · intro s hs hne
    show jsOrNull p.startTime = some s
    rw [hs]
    simp [jsOrNull, hne]
  · intro h
    show jsOrNull p.lastUpdate = none
    rw [h]
    rfl
  · intro s hs hne
    show jsOrNull p.lastUpdate = some s
    rw [hs]
    simp [jsOrNull, hne]

/-- Claim C6 witness: a concrete stored object round-trips its fields. -/
theorem claim_c6_witness :
    loadProgress .missing = emptyProgress
      ∧ (loadProgress (.stored (saveProgress ["k"] [] "s" "u"))).startTime = some "s" :=
  ⟨claim_c6.1, (claim_c6.2.2 (saveProgress ["k"] [] "s" "u")).2.2.2.2.1 "s" rfl (by decide)⟩

/-- Claim C1, counterexample: on a fresh run over an input containing the
same contact twice, both duplicate records are looked up, so the single
processed key corresponds to two LookupResults — the claimed exactly-one
invariant fails within a single run. -/
theorem claim_c1_counterexample :
    ¬ (∀ k ∈ (processConnections exampleExtractors exampleProvider [connAna, connAna]
          none false .missing false "t0").finalProcessed,
        countKey (processConnections exampleExtractors exampleProvider [connAna, connAna]
          none false .missing false "t0").returnedResults k = 1) := by
  decide

/-- Claim C1, amended: provided every record carries a non-empty full
name and the missing-email records of the input derive pairwise-distinct
keys, every key of the final processed set corresponds to exactly one
LookupResult of the returned sequence (and keys outside the set to none),
whenever the loaded progress state already satisfied that invariant; and
no record whose key is already in the loaded processed set is ever looked
up.  Without the distinct-keys proviso, duplicate-keyed records of one
run are each looked up. -/
theorem claim_c1_amended (ex : Extractors) (P : Provider) (conns : List Connection)
    (ss : Option Nat) (resume : Bool) (storage : StorageState) (csvE : Bool) (now : String)
    (hname : ∀ c ∈ conns, c.fullName ≠ "")
    (hkeys : ((conns.filter hasMissingEmail).map connKey).Nodup)
    (hinv : progressInv (loadedProgressFor resume storage).processedNames
      (loadedProgressFor resume storage).results) :
    progressInv (processConnections ex P conns ss resume storage csvE now).finalProcessed
        (processConnections ex P conns ss resume storage csvE now).returnedResults
      ∧ ∀ c ∈ (processConnections ex P conns ss resume storage csvE now).lookups,
          connKey c ∉ (loadedProgressFor resume storage).processedNames := by
  constructor
  · rw [processConnections_finalProcessed, processConnections_returnedResults]
    apply progressInv_extend
    · intro c hc
      exact hname c (candidateList_subset _ _ _ _ c hc)
    · exact List.Nodup.sublist
        (List.Sublist.map connKey
          (candidateList_sublist_missing conns ss resume (loadedProgressFor resume storage)))
        hkeys
    · exact candidateList_key_not_processed conns ss resume storage
    · exact hinv
  · intro c hc
    rw [processConnections_lookups] at hc
    exact candidateList_key_not_processed conns ss resume storage c hc

/-- Claim C1 witness: a fresh run over distinct-keyed records establishes
the exactly-one invariant. -/
theorem claim_c1_amended_witness :
    (∀ c ∈ exampleConns, c.fullName ≠ "")
      ∧ ((exampleConns.filter hasMissingEmail).map connKey).Nodup
      ∧ progressInv
          (processConnections exampleExtractors exampleProvider exampleConns
            none false .missing false "t0").finalProcessed
          (processConnections exampleExtractors exampleProvider exampleConns
            none false .missing false "t0").returnedResults :=
  ⟨by decide, by decide,
    (claim_c1_amended exampleExtractors exampleProvider exampleConns
      none false .missing false "t0" (by decide) (by decide)
      (by intro k; rfl)).1⟩

/-- Claim C2: a resumed run's lookups are exactly the first `m` of the
missing-email records whose key is not in the loaded processed set — the
processed-key filter is applied before the sample truncation — and hence
a resumed run whose loaded processed set is the final processed set of a
prior sampled run never looks up any record that earlier run processed. -/
theorem claim_c2_filter_then_truncate (ex : Extractors) (P : Provider)
    (conns : List Connection) (k m : Nat) (r1 : Bool)
    (st1 st2 : StorageState) (e1 e2 : Bool) (n1 n2 : String)
    (hm : 0 < m)
    (hlink : (loadProgress st2).processedNames
      = (processConnections ex P conns (some k) r1 st1 e1 n1).finalProcessed) :
    (processConnections ex P conns (some m) true st2 e2 n2).lookups
      = (filterProcessedConnections (conns.filter hasMissingEmail)
          (processConnections ex P conns (some k) r1 st1 e1 n1).finalProcessed).take m
    ∧ ∀ c ∈ (processConnections ex P conns (some k) r1 st1 e1 n1).lookups,
        c ∉ (processConnections ex P conns (some m) true st2 e2 n2).lookups := by
  have hrun2 : (processConnections ex P conns (some m) true st2 e2 n2).lookups
      = (filterProcessedConnections (conns.filter hasMissingEmail)
          (processConnections ex P conns (some k) r1 st1 e1 n1).finalProcessed).take m := by
    rw [processConnections_lookups]
    have hload : loadedProgressFor true st2 = loadProgress st2 := by
      simp [loadedProgressFor]
    rw [hload, candidateList_resume_eq, hlink]
    simp only [applySample]
    rw [if_pos hm]
  refine ⟨hrun2, ?_⟩
  intro c hc hc2
  rw [hrun2] at hc2
  have hmem := List.take_subset m _ hc2
  exact (mem_filterProcessedConnections.mp hmem).2
    (lookup_key_mem_finalProcessed ex P conns (some k) r1 st1 e1 n1 c hc)

/-- Claim C2 witness: after a fresh run with sample 1, resuming with
sample 1 processes the next unprocessed candidate and skips the first. -/
theorem claim_c2_witness :
    (0 : Nat) < 1
      ∧ (loadProgress (.stored (saveProgress ["ana|acme"] [] "t1" "t2"))).processedNames
          = (processConnections exampleExtractors exampleProvider exampleConns
              (some 1) false .missing false "t0").finalProcessed
      ∧ ((processConnections exampleExtractors exampleProvider exampleConns (some 1) true
            (.stored (saveProgress ["ana|acme"] [] "t1" "t2")) true "t3").lookups
          = (filterProcessedConnections (exampleConns.filter hasMissingEmail)
              (processConnections exampleExtractors exampleProvider exampleConns
                (some 1) false .missing false "t0").finalProcessed).take 1
        ∧ ∀ c ∈ (processConnections exampleExtractors exampleProvider exampleConns
              (some 1) false .missing false "t0").lookups,
            c ∉ (processConnections exampleExtractors exampleProvider exampleConns (some 1) true
              (.stored (saveProgress ["ana|acme"] [] "t1" "t2")) true "t3").lookups) :=
  ⟨by decide, by decide,
    claim_c2_filter_then_truncate exampleExtractors exampleProvider exampleConns 1 1 false
      .missing (.stored (saveProgress ["ana|acme"] [] "t1" "t2")) false true "t0" "t3"
      (by decide) (by decide)⟩

/-- Claim C4: a candidate whose provider lookup throws yields a result
carrying the error message as response text, empty email and source,
confidence LOW and an empty truncated search-results field; and the run
still records one sink write per candidate and looks up every candidate,
so no single lookup error aborts the batch. -/
theorem claim_c4_error_degradation (ex : Extractors) (P : Provider)
    (conns : List Connection) (ss : Option Nat) (resume : Bool)
    (storage : StorageState) (csvE : Bool) (now : String)
    (c : Connection) (msg : String)
    (hc : P (lookupName c) c.company c.position = .err msg) :
    ((searchEmailFor ex P c).response = msg
      ∧ (searchEmailFor ex P c).email = ""
      ∧ (searchEmailFor ex P c).source = ""
      ∧ (searchEmailFor ex P c).confidence = "LOW"
      ∧ (searchEmailFor ex P c).searchResults = "")
    ∧ (processConnections ex P conns ss resume storage csvE now).sinkWrites.map
        (fun w => w.result)
      = (candidateList conns ss resume (loadedProgressFor resume storage)).map
          (searchEmailFor ex P)
    ∧ (processConnections ex P conns ss resume storage csvE now).lookups
      = candidateList conns ss resume (loadedProgressFor resume storage) := by
  refine ⟨?_, processConnections_sink_results ex P conns ss resume storage csvE now,
    processConnections_lookups ex P conns ss resume storage csvE now⟩
  unfold searchEmailFor searchEmail
  rw [hc]
  exact ⟨rfl, rfl, rfl, rfl, rfl⟩

/-- Claim C4 witness: with an always-throwing provider, the error-shaped
result is produced and both candidates are still written. -/
theorem claim_c4_witness :
    exampleProvider (lookupName connAna) connAna.company connAna.position
        = .err "network timeout"
      ∧ (searchEmailFor exampleExtractors exampleProvider connAna).response = "network timeout"
      ∧ (processConnections exampleExtractors exampleProvider [connAna, connBob]
          none false .missing false "t0").sinkWrites.map (fun w => w.result)
        = (candidateList [connAna, connBob] none false
            (loadedProgressFor false .missing)).map
            (searchEmailFor exampleExtractors exampleProvider) :=
  ⟨rfl,
    (claim_c4_error_degradation exampleExtractors exampleProvider [connAna, connBob]
      none false .missing false "t0" connAna "network timeout" rfl).1.1,
    (claim_c4_error_degradation exampleExtractors exampleProvider [connAna, connBob]
      none false .missing false "t0" connAna "network timeout" rfl).2.1⟩

/-- Claim C5: when a run writes at least one record, its first
incremental write carries the header exactly when the run is not a
resume or the output file check reports no prior non-empty output, and
every subsequent write of the run appends without a header. -/
theorem claim_c5_header_policy (ex : Extractors) (P : Provider)
    (conns : List Connection) (ss : Option Nat) (resume : Bool)
    (storage : StorageState) (csvE : Bool) (now : String)
    (h : candidateList conns ss resume (loadedProgressFor resume storage) ≠ []) :
    (processConnections ex P conns ss resume storage csvE now).sinkWrites.map
        (fun w => w.withHeader)
      = (!resume || !csvE)
        :: List.replicate
            ((candidateList conns ss resume (loadedProgressFor resume storage)).length - 1)
            false := by
  rw [processConnections_sink_headers]
  obtain ⟨c0, t0, hct⟩ := List.exists_cons_of_ne_nil h
  rw [hct]
  simp [headerFlags]

/-- Claim C5 witness: a resumed run continuing an existing non-empty
output file writes both its records without a header. -/
theorem claim_c5_witness :
    candidateList exampleConns none true
        (loadedProgressFor true (.stored (saveProgress ["ana|acme"] [] "t1" "t2"))) ≠ []
      ∧ (processConnections exampleExtractors exampleProvider exampleConns none true
          (.stored (saveProgress ["ana|acme"] [] "t1" "t2")) true "t3").sinkWrites.map
            (fun w => w.withHeader)
        = (!true || !true)
          :: List.replicate
              ((candidateList exampleConns none true
                (loadedProgressFor true
                  (.stored (saveProgress ["ana|acme"] [] "t1" "t2")))).length - 1)
              false :=
  ⟨by decide,
    claim_c5_header_policy exampleExtractors exampleProvider exampleConns none true
      (.stored (saveProgress ["ana|acme"] [] "t1" "t2")) true "t3" (by decide)⟩

/-- Claim C7: a run over at least one candidate checkpoints exactly
after each record whose 1-based session position is a multiple of 5 and
after the last record, and then once more unconditionally when the run
finishes; the final checkpoint carries the final processed set and the
full returned results. -/
theorem claim_c7_checkpoint_cadence (ex : Extractors) (P : Provider)
    (conns : List Connection) (ss : Option Nat) (resume : Bool)
    (storage : StorageState) (csvE : Bool) (now : String)
    (h : 0 < (candidateList conns ss resume (loadedProgressFor resume storage)).length) :
    (processConnections ex P conns ss resume storage csvE now).saves.map
        (fun s => s.sessionCount)
      = (List.range' 1
            (candidateList conns ss resume (loadedProgressFor resume storage)).length).filter
          (fun j => decide (j % 5 = 0
            ∨ j = (candidateList conns ss resume (loadedProgressFor resume storage)).length))
        ++ [(candidateList conns ss resume (loadedProgressFor resume storage)).length]
    ∧ (processConnections ex P conns ss resume storage csvE now).saves.getLast?
      = some ⟨(processConnections ex P conns ss resume storage csvE now).finalProcessed,
          (processConnections ex P conns ss resume storage csvE now).returnedResults,
          jsOrString (loadedProgressFor resume storage).startTime now,
          (candidateList conns ss resume (loadedProgressFor resume storage)).length⟩ := by
  refine ⟨processConnections_saves ex P conns ss resume storage csvE now h, ?_⟩
  rw [processConnections_finalProcessed, processConnections_returnedResults]
  exact processConnections_last_save ex P conns ss resume storage csvE now h

/-- Claim C7 witness: a fresh run over three candidates saves after the
third (last) record and once more at the end. -/
theorem claim_c7_witness :
    0 < (candidateList exampleConns none false (loadedProgressFor false .missing)).length
      ∧ (processConnections exampleExtractors exampleProvider exampleConns
            none false .missing false "t0").saves.map (fun s => s.sessionCount)
        = (List.range' 1
              (candidateList exampleConns none false
                (loadedProgressFor false .missing)).length).filter
            (fun j => decide (j % 5 = 0
              ∨ j = (candidateList exampleConns none false
                  (loadedProgressFor false .missing)).length))
          ++ [(candidateList exampleConns none false
              (loadedProgressFor false .missing)).length] :=
  ⟨by decide,
    (claim_c7_checkpoint_cadence exampleExtractors exampleProvider exampleConns
      none false .missing false "t0" (by decide)).1⟩

/-- Claim C8: a record is a missing-email candidate exactly when its
resolved email value (the `Email` field, falling back to
`Email Address`) is empty, whitespace-only, or the exact sentinel string
`N/A`; and the reported total of such records is computed from the full
input, identically for any resume flag and storage state. -/
theorem claim_c8_candidate_criterion (ex : Extractors) (P : Provider)
    (conns : List Connection) (ss : Option Nat)
    (r1 r2 : Bool) (st1 st2 : StorageState) (e1 e2 : Bool) (n1 n2 : String) :
    (∀ c, c ∈ conns.filter hasMissingEmail ↔ c ∈ conns ∧ specIsCandidate c)
    ∧ (processConnections ex P conns ss r1 st1 e1 n1).totalMissing
      = (conns.filter hasMissingEmail).length
    ∧ (processConnections ex P conns ss r1 st1 e1 n1).totalMissing
      = (processConnections ex P conns ss r2 st2 e2 n2).totalMissing := by
  refine ⟨?_, processConnections_totalMissing ex P conns ss r1 st1 e1 n1, ?_⟩
  · intro c
    rw [List.mem_filter]
    constructor
    · rintro ⟨hmem, hp⟩
      refine ⟨hmem, ?_⟩
      have := by simpa [hasMissingEmail] using hp
      unfold specIsCandidate
      tauto
    · rintro ⟨hmem, hp⟩
      refine ⟨hmem, ?_⟩
      unfold specIsCandidate at hp
      simp only [hasMissingEmail, Bool.or_eq_true, decide_eq_true_eq]
      tauto
  · rw [processConnections_totalMissing, processConnections_totalMissing]

/-- Claim C9: a run whose candidate list is empty after filtering and
sampling returns exactly the loaded results sequence, issues no lookup,
writes nothing to the result sink and saves no checkpoint. -/
theorem claim_c9_empty_candidates (ex : Extractors) (P : Provider)
    (conns : List Connection) (ss : Option Nat) (resume : Bool)
    (storage : StorageState) (csvE : Bool) (now : String)
    (h : candidateList conns ss resume (loadedProgressFor resume storage) = []) :
    (processConnections ex P conns ss resume storage csvE now).returnedResults
        = (loadedProgressFor resume storage).results
    ∧ (processConnections ex P conns ss resume storage csvE now).sinkWrites = []
    ∧ (processConnections ex P conns ss resume storage csvE now).lookups = []
    ∧ (processConnections ex P conns ss resume storage csvE now).saves = [] := by
  have hlen : (candidateList conns ss resume (loadedProgressFor resume storage)).length = 0 := by
    rw [h]
    rfl
  simp only [processConnections, processConnectionsCore]
  rw [if_pos hlen]
  exact ⟨rfl, rfl, rfl, rfl⟩

/-- Claim C9 witness: a resumed run whose only record already carries an
email returns the stored prior results untouched. -/
theorem claim_c9_witness :
    candidateList [connDee] none true
        (loadedProgressFor true (.stored (saveProgress ["zoe|zed"] [exampleResult] "t1" "t2")))
      = []
      ∧ (processConnections exampleExtractors exampleProvider [connDee] none true
          (.stored (saveProgress ["zoe|zed"] [exampleResult] "t1" "t2")) true "t3").returnedResults
        = (loadedProgressFor true
            (.stored (saveProgress ["zoe|zed"] [exampleResult] "t1" "t2"))).results :=
  ⟨by decide,
    (claim_c9_empty_candidates exampleExtractors exampleProvider [connDee] none true
      (.stored (saveProgress ["zoe|zed"] [exampleResult] "t1" "t2")) true "t3" (by decide)).1⟩

/-- Claim C10: saving a progress state and loading it back recovers the
same processed-key set, the same results sequence in the same order, and
the same start timestamp, for every duplicate-free key set and non-empty
timestamp string. -/
theorem claim_c10_save_load_roundtrip (s : List String) (r : List LookupResult)
    (startTime now : String) (hs : s.Nodup) (hst : startTime ≠ "") :
    (loadProgress (.stored (saveProgress s r startTime now))).processedNames = s
    ∧ (loadProgress (.stored (saveProgress s r startTime now))).results = r
    ∧ (loadProgress (.stored (saveProgress s r startTime now))).startTime = some startTime := by
  refine ⟨?_, rfl, ?_⟩
  · show setFromList s = s
    exact setFromList_eq_self hs
  · show jsOrNull (some startTime) = some startTime
    simp [jsOrNull, hst]

/-- Claim C10 witness: a concrete save/load round-trip is the identity
on the three fields. -/
theorem claim_c10_witness :
    (["a|b", "c|d"] : List String).Nodup
      ∧ (loadProgress (.stored (saveProgress ["a|b", "c|d"] [exampleResult]
          "2024-01-01T00:00:00Z" "2024-01-02T00:00:00Z"))).processedNames = ["a|b", "c|d"]
      ∧ (loadProgress (.stored (saveProgress ["a|b", "c|d"] [exampleResult]
          "2024-01-01T00:00:00Z" "2024-01-02T00:00:00Z"))).results = [exampleResult]
      ∧ (loadProgress (.stored (saveProgress ["a|b", "c|d"] [exampleResult]
          "2024-01-01T00:00:00Z" "2024-01-02T00:00:00Z"))).startTime
        = some "2024-01-01T00:00:00Z" :=
  ⟨by decide,
    (claim_c10_save_load_roundtrip ["a|b", "c|d"] [exampleResult]
      "2024-01-01T00:00:00Z" "2024-01-02T00:00:00Z" (by decide) (by decide)).1,
    (claim_c10_save_load_roundtrip ["a|b", "c|d"] [exampleResult]
      "2024-01-01T00:00:00Z" "2024-01-02T00:00:00Z" (by decide) (by decide)).2.1,
    (claim_c10_save_load_roundtrip ["a|b", "c|d"] [exampleResult]
      "2024-01-01T00:00:00Z" "2024-01-02T00:00:00Z" (by decide) (by decide)).2.2⟩

end LinkedInExtract
